import Mathlib

/-!
Verification of the deletion engine of `file_delete_tasker`
(`FileDeleter.DeleteFilesWithTimeout` in `main.go`).

The engine is embedded shallowly:

* pure pieces of the Go code (the entry filter, the per-attempt
  `select` block, the final error aggregation) become Lean functions;
* the concurrent structure (producer goroutine, buffered `fileChan`,
  worker goroutines, buffered `errorChan`, `wg.Wait`) becomes an
  explicit small-step transition relation `Step` on `EngineState`,
  whose reflexive-transitive closure from the initial state is
  `Reachable`.

Timing (the per-attempt timeout racing `os.Remove`) is abstracted by
letting each attempt nondeterministically produce any `SelectOutcome`:
either the `ctx.Done()` case of the `select` wins, or the `errChan`
case wins carrying the result of `os.Remove`.

A Go send on a closed channel panics and an unrecovered panic in any
goroutine kills the whole process; the model records this with the
`panicked` flag, and no further step is possible once it is set.
-/

/-- One directory entry as seen by the engine: `os.DirEntry` restricted
to the two observations the code makes, `Name()` and `IsDir()`. -/
structure DirEntry where
  name : String
  isDir : Bool
deriving DecidableEq, Repr

/-- The `FileTask` struct local to `DeleteFilesWithTimeout`:
`{ FileName string; Retries int }`. -/
structure FileTask where
  fileName : String
  retries : Nat
deriving DecidableEq, Repr

/-- Result of the underlying `os.Remove` call, as far as the engine can
observe it.  The engine itself only tests `err != nil`, but we keep the
not-found case distinct so that idempotence claims can be stated. -/
inductive RemoveErr where
  /-- `os.Remove` on a path that does not exist: `*PathError` wrapping
  `ENOENT`, rendered `remove <path>: no such file or directory`. -/
  | notFound (path : String)
  /-- any other failure (permission denied, ...), rendered by its message. -/
  | other (msg : String)
deriving DecidableEq, Repr

/-- The Go rendering (`%v`) of a `RemoveErr`. -/
def RemoveErr.render : RemoveErr → String
  | .notFound path => "remove " ++ path ++ ": no such file or directory"
  | .other msg => msg

/-- Which case of the worker's `select` statement fires for one attempt:
either the timeout context is done first, or the result of `os.Remove`
arrives on `errChan` first (`none` = `nil` error, `some e` = non-nil). -/
inductive SelectOutcome where
  | ctxDone
  | errChanRecv (err : Option RemoveErr)
deriving DecidableEq, Repr

/-- A terminal error the worker sends on `errorChan`, together with the
data the two `fmt.Errorf` calls interpolate. -/
inductive TerminalError where
  /-- `timeout deleting file after %d retries: %s` -/
  | timeout (maxRetries : Nat) (filePath : String)
  /-- `failed to delete file after %d retries: %s, %v` -/
  | deleteFailed (maxRetries : Nat) (filePath : String) (cause : RemoveErr)
deriving DecidableEq, Repr

/-- The `err.Error()` string of a `TerminalError`, following the two
`fmt.Errorf` format strings in the worker. -/
def TerminalError.render : TerminalError → String
  | .timeout maxRetries filePath =>
      "timeout deleting file after " ++ toString maxRetries ++ " retries: " ++ filePath
  | .deleteFailed maxRetries filePath cause =>
      "failed to delete file after " ++ toString maxRetries ++ " retries: "
        ++ filePath ++ ", " ++ cause.render

/-- Go `strings.HasSuffix s suffix`: byte-level suffix test
`len(s) >= len(suffix) && s[len(s)-len(suffix):] == suffix`,
modelled on the character list of the string. -/
def goHasSuffix (s suffix : String) : Bool :=
  decide (suffix.length ≤ s.length)
    && (s.toList.drop (s.length - suffix.length) == suffix.toList)

/-- Path concatenation standing for `filepath.Join(dirPath, fileName)`.
(`filepath.Join` additionally cleans the result; no claim depends on the
cleaning, only on the path being a function of directory and name.) -/
def joinPath (dirPath fileName : String) : String :=
  dirPath ++ "/" ++ fileName

/-- Go `strings.Join xs sep`. -/
def goJoin (sep : String) : List String → String
  | [] => ""
  | [x] => x
  | x :: xs => x ++ sep ++ goJoin sep xs

/-- The initial tasks the producer goroutine sends, in order: the Go loop
`for _, file := range files { if !file.IsDir() && strings.HasSuffix(file.Name(), fd.Extension)
{ fileChan <- FileTask{FileName: file.Name(), Retries: 0} } }`. -/
def matchingTasks (extension : String) (files : List DirEntry) : List FileTask :=
  (files.filter fun f => !f.isDir && goHasSuffix f.name extension).map
    fun f => { fileName := f.name, retries := 0 }

/-- What a worker does with the task it currently holds, once the
`select` block has resolved. -/
inductive StepOut where
  /-- deletion succeeded: log `Deleted file: %s` and drop the task. -/
  | done
  /-- `task.Retries++; fileChan <- task`. -/
  | requeue (t : FileTask)
  /-- `errorChan <- fmt.Errorf(...)`. -/
  | terminal (e : TerminalError)
deriving DecidableEq, Repr

/-- The worker's `select` block for one attempt at `task`, given which
case fired.  Mirrors `main.go` lines 67-88: on `ctx.Done()` retry if
`task.Retries < maxRetries` else emit the timeout error; on a non-nil
`err` from `errChan` retry if `task.Retries < maxRetries` else emit the
delete-failed error; on a nil `err` the file was deleted. -/
def workerSelect (maxRetries : Nat) (dirPath : String) (task : FileTask)
    (o : SelectOutcome) : StepOut :=
  match o with
  | .ctxDone =>
      if task.retries < maxRetries then
        .requeue { task with retries := task.retries + 1 }
      else
        .terminal (.timeout maxRetries (joinPath dirPath task.fileName))
  | .errChanRecv err =>
      match err with
      | some e =>
          if task.retries < maxRetries then
            .requeue { task with retries := task.retries + 1 }
          else
            .terminal (.deleteFailed maxRetries (joinPath dirPath task.fileName) e)
      | none => .done

/-- An attempt outcome that counts as a failure for the retry protocol:
the timeout case, or a non-nil `os.Remove` error. -/
def isFailure : SelectOutcome → Bool
  | .ctxDone => true
  | .errChanRecv (some _) => true
  | .errChanRecv none => false

/-- The combined failure message built at the end of the run:
`errors occurred during file deletion: ` followed by the collected
`err.Error()` strings joined with `"; "`. -/
def combinedMessage (errs : List TerminalError) : String :=
  "errors occurred during file deletion: "
    ++ goJoin "; " (errs.map TerminalError.render)

/-- The value `DeleteFilesWithTimeout` returns once `wg.Wait()` is over
and `errorChan` has been drained into `errors`:
`nil` when no terminal error was collected, otherwise the single
combined error. -/
def collectResult (errs : List TerminalError) : Except String Unit :=
  if errs.length > 0 then .error (combinedMessage errs) else .ok ()

/-- The immutable parameters of one call to `DeleteFilesWithTimeout`:
the receiver's `Extension`, the arguments `dirPath`, `files`,
`workerCount` and `maxRetries`.  The `timeout` duration itself is not
modelled numerically; it only decides which `select` case fires, which
the model leaves nondeterministic. -/
structure Env where
  dirPath : String
  extension : String
  files : List DirEntry
  workerCount : Nat
  maxRetries : Nat
deriving Repr

/-- The capacity of both buffered channels: `make(chan _, len(files))`. -/
def Env.capacity (env : Env) : Nat := env.files.length

/-- The filtered initial task list of this run. -/
def Env.matching (env : Env) : List FileTask :=
  matchingTasks env.extension env.files

/-- The state of one worker goroutine: still waiting on
`for task := range fileChan`, currently processing a dequeued task, or
exited from the range loop (its `wg.Done` has run). -/
inductive WState where
  | idle
  | busy (t : FileTask)
  | exited
deriving DecidableEq, Repr

/-- Number of workers currently holding a task. -/
def busyCount (ws : List WState) : Nat :=
  ws.countP fun w => match w with | .busy _ => true | _ => false

/-- Every worker has left its range loop (so `wg.Wait()` returns). -/
def allExited (ws : List WState) : Bool :=
  ws.all fun w => match w with | .exited => true | _ => false

/-- Global state of one run of `DeleteFilesWithTimeout`. -/
structure EngineState where
  /-- how many of the matching tasks the producer goroutine has sent. -/
  produced : Nat
  /-- whether `close(fileChan)` has executed. -/
  closed : Bool
  /-- the buffered contents of `fileChan`, front = next to dequeue. -/
  queue : List FileTask
  /-- the worker goroutines. -/
  workers : List WState
  /-- files successfully deleted (the `Deleted file: %s` log). -/
  succeeded : List String
  /-- the buffered contents of `errorChan`. -/
  errors : List TerminalError
  /-- a goroutine panicked (send on closed channel); the process dies. -/
  panicked : Bool
  /-- the function's return value, once `wg.Wait` has returned and the
  errors were collected. -/
  result : Option (Except String Unit)
deriving Repr

/-- State at the start of the run: nothing sent, channels open and
empty, `workerCount` workers inside their range loop. -/
def initState (env : Env) : EngineState :=
  { produced := 0
    closed := false
    queue := []
    workers := List.replicate env.workerCount .idle
    succeeded := []
    errors := []
    panicked := false
    result := none }

/-- One interleaved step of the run.  Worker-goroutine steps identify
the acting worker by splitting the worker list as `l ++ w :: r`.
Channel sends are modelled by Go's rules: a send blocks (the step is
not enabled) while the buffer is full, and a send on a closed channel
panics, killing the process. -/
inductive Step (env : Env) : EngineState → EngineState → Prop where
  /-- the producer goroutine sends the next matching task
  (`fileChan <- FileTask{FileName: file.Name(), Retries: 0}`). -/
  | produce (s : EngineState) (t : FileTask) (hp : s.panicked = false)
      (h : env.matching.get? s.produced = some t)
      (hq : s.queue.length < env.capacity) :
      Step env s { s with
        produced := s.produced + 1
        queue := s.queue ++ [t] }
  /-- the producer goroutine runs `close(fileChan)` after its loop. -/
  | closeChan (s : EngineState) (hp : s.panicked = false)
      (h : s.produced = env.matching.length) (hc : s.closed = false) :
      Step env s { s with closed := true }
  /-- an idle worker's `range fileChan` receives a buffered task. -/
  | dequeue (s : EngineState) (l r : List WState) (t : FileTask)
      (rest : List FileTask) (hp : s.panicked = false)
      (hw : s.workers = l ++ .idle :: r) (hq : s.queue = t :: rest) :
      Step env s { s with workers := l ++ .busy t :: r, queue := rest }
  /-- an idle worker's `range fileChan` observes the channel closed and
  drained and leaves the loop (`defer wg.Done()` runs). -/
  | workerExit (s : EngineState) (l r : List WState)
      (hp : s.panicked = false) (hw : s.workers = l ++ .idle :: r)
      (hc : s.closed = true) (hq : s.queue = []) :
      Step env s { s with workers := l ++ .exited :: r }
  /-- a busy worker's attempt resolves with a nil error before the
  timeout: the file is deleted, the task dropped. -/
  | attemptDone (s : EngineState) (l r : List WState) (t : FileTask)
      (o : SelectOutcome) (hp : s.panicked = false)
      (hw : s.workers = l ++ .busy t :: r)
      (ho : workerSelect env.maxRetries env.dirPath t o = .done) :
      Step env s { s with workers := l ++ .idle :: r
                          succeeded := s.succeeded ++ [joinPath env.dirPath t.fileName] }
  /-- a busy worker's attempt fails with retries left, and `fileChan`
  is still open: the incremented task is re-enqueued. -/
  | attemptRequeue (s : EngineState) (l r : List WState) (t t' : FileTask)
      (o : SelectOutcome) (hp : s.panicked = false)
      (hw : s.workers = l ++ .busy t :: r)
      (ho : workerSelect env.maxRetries env.dirPath t o = .requeue t')
      (hc : s.closed = false) (hq : s.queue.length < env.capacity) :
      Step env s { s with workers := l ++ .idle :: r, queue := s.queue ++ [t'] }
  /-- a busy worker's attempt fails with retries left, but `fileChan`
  has already been closed: `fileChan <- task` panics. -/
  | attemptRequeueClosed (s : EngineState) (l r : List WState)
      (t t' : FileTask) (o : SelectOutcome) (hp : s.panicked = false)
      (hw : s.workers = l ++ .busy t :: r)
      (ho : workerSelect env.maxRetries env.dirPath t o = .requeue t')
      (hc : s.closed = true) :
      Step env s { s with panicked := true }
  /-- a busy worker's attempt fails with retries exhausted: the terminal
  error is sent on `errorChan`. -/
  | attemptTerminal (s : EngineState) (l r : List WState) (t : FileTask)
      (e : TerminalError) (o : SelectOutcome) (hp : s.panicked = false)
      (hw : s.workers = l ++ .busy t :: r)
      (ho : workerSelect env.maxRetries env.dirPath t o = .terminal e)
      (he : s.errors.length < env.capacity) :
      Step env s { s with workers := l ++ .idle :: r, errors := s.errors ++ [e] }
  /-- the main goroutine: `wg.Wait()` returns once every worker has
  exited, `errorChan` is closed and drained, and the function returns. -/
  | finish (s : EngineState) (hp : s.panicked = false)
      (hr : s.result = none) (hw : allExited s.workers = true) :
      Step env s { s with result := some (collectResult s.errors) }

/-- States a run of `DeleteFilesWithTimeout` can reach. -/
inductive Reachable (env : Env) : EngineState → Prop where
  | init : Reachable env (initState env)
  | step {s s' : EngineState} : Reachable env s → Step env s s' → Reachable env s'

/-- Characterization of the retry branch of the `select` block: the
worker re-enqueues exactly when the attempt failed and
`task.Retries < maxRetries`, and then the re-enqueued task is the same
file with the retry counter incremented by one. -/
lemma workerSelect_eq_requeue_iff (maxRetries : Nat) (dirPath : String)
    (task : FileTask) (o : SelectOutcome) (t' : FileTask) :
    workerSelect maxRetries dirPath task o = .requeue t' ↔
      isFailure o = true ∧ task.retries < maxRetries
        ∧ t' = { task with retries := task.retries + 1 } := by
  cases o with
  | ctxDone =>
      by_cases h : task.retries < maxRetries <;>
        simp [workerSelect, isFailure, h, eq_comm]
  | errChanRecv err =>
      cases err with
      | none => simp [workerSelect, isFailure]
      | some e =>
          by_cases h : task.retries < maxRetries <;>
            simp [workerSelect, isFailure, h, eq_comm]

/-- Characterization of the terminal branch: once the retry budget is
spent, a failing attempt yields a terminal error, never a re-enqueue. -/
lemma workerSelect_terminal_of_exhausted (maxRetries : Nat) (dirPath : String)
    (task : FileTask) (o : SelectOutcome) (hf : isFailure o = true)
    (hr : maxRetries ≤ task.retries) :
    (∃ e, workerSelect maxRetries dirPath task o = .terminal e)
      ∧ ∀ t', workerSelect maxRetries dirPath task o ≠ .requeue t' := by
  have hnot : ¬ task.retries < maxRetries := by omega
  refine ⟨?_, ?_⟩
  · cases o with
    | ctxDone =>
        exact ⟨.timeout maxRetries (joinPath dirPath task.fileName),
          by simp [workerSelect, hnot]⟩
    | errChanRecv err =>
        cases err with
        | none => simp [isFailure] at hf
        | some e =>
            exact ⟨.deleteFailed maxRetries (joinPath dirPath task.fileName) e,
              by simp [workerSelect, hnot]⟩
  · intro t' hc
    rcases (workerSelect_eq_requeue_iff _ _ _ _ _).mp hc with ⟨_, hlt, _⟩
    omega

/-- Membership in the filtered initial task list: exactly the
non-directory entries whose name ends with the extension, each paired
with a zero retry counter. -/
lemma mem_matchingTasks (extension : String) (files : List DirEntry)
    (t : FileTask) :
    t ∈ matchingTasks extension files ↔
      ∃ f, f ∈ files ∧ f.isDir = false ∧ goHasSuffix f.name extension = true
        ∧ t = { fileName := f.name, retries := 0 } := by
  simp only [matchingTasks, List.mem_map, List.mem_filter, Bool.and_eq_true,
    Bool.not_eq_true']
  constructor
  · rintro ⟨f, ⟨hmem, hdir, hsuf⟩, rfl⟩
    exact ⟨f, hmem, hdir, hsuf, rfl⟩
  · rintro ⟨f, hmem, hdir, hsuf, rfl⟩
    exact ⟨f, ⟨hmem, hdir, hsuf⟩, rfl⟩

/-- Every initial task starts with `Retries: 0`. -/
lemma retries_eq_zero_of_mem_matchingTasks (extension : String)
    (files : List DirEntry) (t : FileTask) (h : t ∈ matchingTasks extension files) :
    t.retries = 0 := by
  rcases (mem_matchingTasks extension files t).mp h with ⟨f, -, -, -, rfl⟩
  rfl

/-- There are never more matching tasks than directory entries, so the
channel capacity `len(files)` covers all initial tasks. -/
lemma matching_length_le (env : Env) : env.matching.length ≤ env.capacity := by
  have := List.length_filter_le
    (fun f => !f.isDir && goHasSuffix f.name env.extension) env.files
  simpa [Env.matching, Env.capacity, matchingTasks] using this

lemma busyCount_append (l r : List WState) :
    busyCount (l ++ r) = busyCount l + busyCount r := by
  simp [busyCount, List.countP_append]

lemma busyCount_cons_idle (r : List WState) :
    busyCount (.idle :: r) = busyCount r := by
  simp [busyCount, List.countP_cons]

lemma busyCount_cons_exited (r : List WState) :
    busyCount (.exited :: r) = busyCount r := by
  simp [busyCount, List.countP_cons]

lemma busyCount_cons_busy (t : FileTask) (r : List WState) :
    busyCount (.busy t :: r) = busyCount r + 1 := by
  simp [busyCount, List.countP_cons]

lemma busyCount_replicate_idle (n : Nat) :
    busyCount (List.replicate n .idle) = 0 := by
  induction n with
  | zero => rfl
  | succ n ih => simpa [List.replicate_succ, busyCount_cons_idle] using ih

/-- A worker list that is all exited has no idle worker slot. -/
lemma not_allExited_of_idle (l r : List WState)
    (h : allExited (l ++ .idle :: r) = true) : False := by
  simp [allExited, List.all_append, List.all_cons] at h

/-- A worker list that is all exited has no busy worker slot. -/
lemma not_allExited_of_busy (l r : List WState) (t : FileTask)
    (h : allExited (l ++ .busy t :: r) = true) : False := by
  simp [allExited, List.all_append, List.all_cons] at h

/-- Once a goroutine has panicked the process is dead: no configuration
follows a panicked one. -/
lemma no_step_of_panicked (env : Env) (s s' : EngineState)
    (hp : s.panicked = true) : ¬ Step env s s' := by
  intro hstep
  cases hstep <;> simp_all

/-- A member of a list split at one position, different from the element
at that position, is still a member after that element is replaced. -/
lemma mem_split_swap {α : Type _} {w x : α} (y : α) {l r : List α}
    (h : w ∈ l ++ x :: r) (hne : w ≠ x) : w ∈ l ++ y :: r := by
  rcases List.mem_append.mp h with h1 | h2
  · exact List.mem_append.mpr (Or.inl h1)
  · rcases List.mem_cons.mp h2 with h3 | h4
    · exact absurd h3 hne
    · exact List.mem_append.mpr (Or.inr (List.mem_cons_of_mem _ h4))

/-- Accounting invariant of the run: every initial task the producer has
sent is in exactly one place — still buffered in `fileChan`, held by a
busy worker, logged as deleted, or recorded in `errorChan` — and the
producer never sends more than the matching tasks. -/
lemma reachable_accounting (env : Env) (s : EngineState) (h : Reachable env s) :
    s.queue.length + busyCount s.workers + s.succeeded.length + s.errors.length
        = s.produced
      ∧ s.produced ≤ env.matching.length := by
  induction h with
  | init => simp [initState, busyCount_replicate_idle]
  | step hprev hstep ih =>
      rcases ih with ⟨ihEq, ihLe⟩
      cases hstep with
      | produce t hp ht hq =>
          have hlt := (List.get?_eq_some.mp ht).1
          refine ⟨?_, by dsimp only; omega⟩
          dsimp only
          simp only [List.length_append, List.length_cons, List.length_nil]
          omega
      | closeChan hpn hpr hc => exact ⟨ihEq, ihLe⟩
      | dequeue l r t rest hp hw hq =>
          refine ⟨?_, ihLe⟩
          rw [hw, hq] at ihEq
          dsimp only
          simp only [busyCount_append, busyCount_cons_idle, busyCount_cons_busy,
            List.length_cons] at ihEq ⊢
          omega
      | workerExit l r hp hw hc hq =>
          refine ⟨?_, ihLe⟩
          rw [hw] at ihEq
          dsimp only
          simp only [busyCount_append, busyCount_cons_idle,
            busyCount_cons_exited] at ihEq ⊢
          omega
      | attemptDone l r t o hp hw ho =>
          refine ⟨?_, ihLe⟩
          rw [hw] at ihEq
          dsimp only
          simp only [busyCount_append, busyCount_cons_idle, busyCount_cons_busy,
            List.length_append, List.length_cons, List.length_nil] at ihEq ⊢
          omega
      | attemptRequeue l r t t' o hp hw ho hc hq =>
          refine ⟨?_, ihLe⟩
          rw [hw] at ihEq
          dsimp only
          simp only [busyCount_append, busyCount_cons_idle, busyCount_cons_busy,
            List.length_append, List.length_cons, List.length_nil] at ihEq ⊢
          omega
      | attemptRequeueClosed l r t t' o hp hw ho hc => exact ⟨ihEq, ihLe⟩
      | attemptTerminal l r t e o hp hw ho he =>
          refine ⟨?_, ihLe⟩
          rw [hw] at ihEq
          dsimp only
          simp only [busyCount_append, busyCount_cons_idle, busyCount_cons_busy,
            List.length_append, List.length_cons, List.length_nil] at ihEq ⊢
          omega
      | finish hp hres hall => exact ⟨ihEq, ihLe⟩

/-- Retry-bound invariant of the run: every task alive in any reachable
state — buffered in `fileChan` or held by a busy worker — has
`Retries <= maxRetries`. -/
lemma reachable_retries_le (env : Env) (s : EngineState) (h : Reachable env s) :
    ∀ t : FileTask, (t ∈ s.queue ∨ WState.busy t ∈ s.workers) →
      t.retries ≤ env.maxRetries := by
  induction h with
  | init =>
      intro t ht
      rcases ht with hq | hw
      · simp [initState] at hq
      · simp only [initState] at hw
        have := (List.mem_replicate.mp hw).2
        simp at this
  | step hprev hstep ih =>
      intro u hu
      cases hstep with
      | produce t hp ht hq =>
          rcases hu with hq' | hw'
          · rcases List.mem_append.mp hq' with h1 | h2
            · exact ih u (Or.inl h1)
            · have hut : u = t := by simpa using h2
              subst hut
              have hmem : u ∈ env.matching := List.get?_mem ht
              have h0 := retries_eq_zero_of_mem_matchingTasks
                env.extension env.files u hmem
              omega
          · exact ih u (Or.inr hw')
      | closeChan hpn hpr hc => exact ih u hu
      | dequeue l r t rest hp hw hq =>
          rcases hu with hq' | hw'
          · exact ih u (Or.inl (hq ▸ List.mem_cons_of_mem t hq'))
          · by_cases hut : u = t
            · subst hut
              exact ih u (Or.inl (hq ▸ List.mem_cons_self u rest))
            · have : WState.busy u ∈ l ++ WState.idle :: r :=
                mem_split_swap _ hw' (by simp [hut])
              exact ih u (Or.inr (hw ▸ this))
      | workerExit l r hp hw hc hq =>
          rcases hu with hq' | hw'
          · exact ih u (Or.inl hq')
          · have : WState.busy u ∈ l ++ WState.idle :: r :=
              mem_split_swap _ hw' (by simp)
            exact ih u (Or.inr (hw ▸ this))
      | attemptDone l r t o hp hw ho =>
          rcases hu with hq' | hw'
          · exact ih u (Or.inl hq')
          · have : WState.busy u ∈ l ++ WState.busy t :: r :=
              mem_split_swap _ hw' (by simp)
            exact ih u (Or.inr (hw ▸ this))
      | attemptRequeue l r t t' o hp hw ho hc hq =>
          rcases hu with hq' | hw'
          · rcases List.mem_append.mp hq' with h1 | h2
            · exact ih u (Or.inl h1)
            · have hut : u = t' := by simpa using h2
              subst hut
              rcases (workerSelect_eq_requeue_iff _ _ _ _ _).mp ho with ⟨-, hlt, rfl⟩
              simp only []
              omega
          · have : WState.busy u ∈ l ++ WState.busy t :: r :=
              mem_split_swap _ hw' (by simp)
            exact ih u (Or.inr (hw ▸ this))
      | attemptRequeueClosed l r t t' o hp hw ho hc => exact ih u hu
      | attemptTerminal l r t e o hp hw ho he =>
          rcases hu with hq' | hw'
          · exact ih u (Or.inl hq')
          · have : WState.busy u ∈ l ++ WState.busy t :: r :=
              mem_split_swap _ hw' (by simp)
            exact ih u (Or.inr (hw ▸ this))
      | finish hp hres hall => exact ih u hu

/-- Return invariant of the run: the function's return value exists only
after `wg.Wait()` has seen every worker exit, and it is exactly the
aggregation of the terminal errors collected at that point. -/
lemma reachable_result (env : Env) (s : EngineState) (h : Reachable env s) :
    ∀ res, s.result = some res →
      allExited s.workers = true ∧ res = collectResult s.errors := by
  induction h with
  | init => intro res hres; simp [initState] at hres
  | step hprev hstep ih =>
      intro res hres
      cases hstep with
      | produce t hp ht hq => exact ih res hres
      | closeChan hpn hpr hc => exact ih res hres
      | dequeue l r t rest hp hw hq =>
          rcases ih res hres with ⟨hex, -⟩
          rw [hw] at hex
          exact absurd hex (fun hh => not_allExited_of_idle l r hh)
      | workerExit l r hp hw hc hq =>
          rcases ih res hres with ⟨hex, -⟩
          rw [hw] at hex
          exact absurd hex (fun hh => not_allExited_of_idle l r hh)
      | attemptDone l r t o hp hw ho =>
          rcases ih res hres with ⟨hex, -⟩
          rw [hw] at hex
          exact absurd hex (fun hh => not_allExited_of_busy l r t hh)
      | attemptRequeue l r t t' o hp hw ho hc hq =>
          rcases ih res hres with ⟨hex, -⟩
          rw [hw] at hex
          exact absurd hex (fun hh => not_allExited_of_busy l r t hh)
      | attemptRequeueClosed l r t t' o hp hw ho hc => exact ih res hres
      | attemptTerminal l r t e o hp hw ho he =>
          rcases ih res hres with ⟨hex, -⟩
          rw [hw] at hex
          exact absurd hex (fun hh => not_allExited_of_busy l r t hh)
      | finish hp hres0 hall =>
          exact ⟨hall, (Option.some.inj hres).symm⟩

/-- A run configuration exercising the retry path: one matching file
`a.rdp`, one worker, `maxRetries = 1`. -/
def envBug : Env :=
  { dirPath := "d", extension := ".rdp"
    files := [{ name := "a.rdp", isDir := false }]
    workerCount := 1, maxRetries := 1 }

/-- The single initial task of that configuration. -/
def taskA : FileTask := { fileName := "a.rdp", retries := 0 }

def stBug0 : EngineState := initState envBug

/-- after the producer sends the task for `a.rdp`. -/
def stBug1 : EngineState :=
  { stBug0 with produced := stBug0.produced + 1, queue := stBug0.queue ++ [taskA] }

/-- after the producer runs `close(fileChan)`. -/
def stBug2 : EngineState := { stBug1 with closed := true }

/-- after the worker dequeues the task. -/
def stBug3 : EngineState :=
  { stBug2 with workers := [] ++ WState.busy taskA :: [], queue := [] }

/-- after the worker's first attempt fails and its retry send
`fileChan <- task` hits the already-closed channel. -/
def stBug4 : EngineState := { stBug3 with panicked := true }

lemma stepBug01 : Step envBug stBug0 stBug1 :=
  Step.produce stBug0 taskA rfl (by decide) (by decide)

lemma stepBug12 : Step envBug stBug1 stBug2 :=
  Step.closeChan stBug1 rfl (by decide) rfl

lemma stepBug23 : Step envBug stBug2 stBug3 :=
  Step.dequeue stBug2 [] [] taskA [] rfl rfl rfl

lemma stepBug34 : Step envBug stBug3 stBug4 :=
  Step.attemptRequeueClosed stBug3 [] [] taskA { fileName := "a.rdp", retries := 1 }
    (SelectOutcome.errChanRecv (some (RemoveErr.other "permission denied")))
    rfl rfl (by decide) rfl

lemma reachBug3 : Reachable envBug stBug3 :=
  Reachable.step (Reachable.step (Reachable.step Reachable.init stepBug01) stepBug12)
    stepBug23

lemma reachBug4 : Reachable envBug stBug4 := Reachable.step reachBug3 stepBug34

/-- The same configuration with `maxRetries = 0` and a first attempt that
succeeds: a complete, panic-free run. -/
def envOk : Env :=
  { dirPath := "d", extension := ".rdp"
    files := [{ name := "a.rdp", isDir := false }]
    workerCount := 1, maxRetries := 0 }

def stOk0 : EngineState := initState envOk

def stOk1 : EngineState :=
  { stOk0 with produced := stOk0.produced + 1, queue := stOk0.queue ++ [taskA] }

def stOk2 : EngineState := { stOk1 with closed := true }

def stOk3 : EngineState :=
  { stOk2 with workers := [] ++ WState.busy taskA :: [], queue := [] }

def stOk4 : EngineState :=
  { stOk3 with workers := [] ++ WState.idle :: []
               succeeded := stOk3.succeeded ++ [joinPath envOk.dirPath taskA.fileName] }

def stOk5 : EngineState := { stOk4 with workers := [] ++ WState.exited :: [] }

def stOk6 : EngineState := { stOk5 with result := some (collectResult stOk5.errors) }

lemma stepOk01 : Step envOk stOk0 stOk1 :=
  Step.produce stOk0 taskA rfl (by decide) (by decide)

lemma stepOk12 : Step envOk stOk1 stOk2 :=
  Step.closeChan stOk1 rfl (by decide) rfl

lemma stepOk23 : Step envOk stOk2 stOk3 :=
  Step.dequeue stOk2 [] [] taskA [] rfl rfl rfl

lemma stepOk34 : Step envOk stOk3 stOk4 :=
  Step.attemptDone stOk3 [] [] taskA (SelectOutcome.errChanRecv none) rfl rfl rfl

lemma stepOk45 : Step envOk stOk4 stOk5 :=
  Step.workerExit stOk4 [] [] rfl rfl rfl rfl

lemma stepOk56 : Step envOk stOk5 stOk6 :=
  Step.finish stOk5 rfl rfl rfl

lemma reachOk6 : Reachable envOk stOk6 :=
  Reachable.step
    (Reachable.step
      (Reachable.step
        (Reachable.step
          (Reachable.step (Reachable.step Reachable.init stepOk01) stepOk12)
          stepOk23)
        stepOk34)
      stepOk45)
    stepOk56

/-- Sequential composition of the per-task protocol: the successive
attempts of one task (each re-enqueue is later dequeued and attempted
again), scripted by the list of `select` outcomes of the attempts.
Returns how many attempts the task underwent and its final outcome, or
`none` if the script is too short to bring the task to rest. -/
def runAttempts (maxRetries : Nat) (dirPath : String) :
    FileTask → List SelectOutcome → Option (Nat × StepOut)
  | _, [] => none
  | t, o :: os =>
      match workerSelect maxRetries dirPath t o with
      | .done => some (1, .done)
      | .terminal e => some (1, .terminal e)
      | .requeue t' =>
          match runAttempts maxRetries dirPath t' os with
          | none => none
          | some (n, out) => some (n + 1, out)

lemma collectResult_ok_iff (errs : List TerminalError) :
    collectResult errs = .ok () ↔ errs = [] := by
  cases errs <;> simp [collectResult]

lemma collectResult_error_of_ne_nil (errs : List TerminalError) (hne : errs ≠ []) :
    collectResult errs = .error (combinedMessage errs) := by
  cases errs with
  | nil => exact absurd rfl hne
  | cons a as => simp [collectResult]

/-- C1: the claim asserts that `close()` of the queue never races with an
in-flight re-enqueue — that a worker re-enqueue after the queue is closed
is structurally impossible.  In the code the producer goroutine runs
`close(fileChan)` right after the initial sends while workers still
re-enqueue retried tasks onto `fileChan`, so a run can reach a state in
which the channel is closed and a worker's retry send has panicked
(send on closed channel): the claimed impossibility fails. -/
theorem claim_C1_requeue_after_close_reachable :
    ∃ s : EngineState, Reachable envBug s ∧ s.closed = true ∧ s.panicked = true :=
  ⟨stBug4, reachBug4, rfl, rfl⟩

/-- C2: the claim asserts every task ends in exactly one of
{deleted, one TerminalError}.  The run reaching the re-enqueue panic
refutes it: the single matching task of `envBug` is neither logged as
deleted nor recorded as a terminal error, the function has not returned,
and the panicked configuration has no successor — the task is dropped. -/
theorem claim_C2_task_dropped_on_panic :
    ∃ s : EngineState, Reachable envBug s ∧ s.panicked = true
      ∧ s.succeeded = [] ∧ s.errors = [] ∧ s.result = none
      ∧ envBug.matching.length = 1
      ∧ ∀ s', ¬ Step envBug s s' :=
  ⟨stBug4, reachBug4, rfl, rfl, rfl, rfl, by decide,
    fun s' => no_step_of_panicked envBug stBug4 s' rfl⟩

/-- C3: on a failed or timed-out attempt the task is re-enqueued if and
only if its retry count before the increment is strictly below
`maxRetries`, and the re-enqueued task is the same file with the count
increased by exactly 1. -/
theorem claim_C3_retry_iff_budget (maxRetries : Nat) (dirPath : String)
    (task : FileTask) (o : SelectOutcome) (hf : isFailure o = true) :
    ((∃ t', workerSelect maxRetries dirPath task o = .requeue t') ↔
        task.retries < maxRetries)
      ∧ ∀ t', workerSelect maxRetries dirPath task o = .requeue t' →
          t'.retries = task.retries + 1 ∧ t'.fileName = task.fileName := by
  constructor
  · constructor
    · rintro ⟨t', ht'⟩
      exact ((workerSelect_eq_requeue_iff _ _ _ _ _).mp ht').2.1
    · intro hlt
      exact ⟨_, (workerSelect_eq_requeue_iff _ _ _ _ _).mpr ⟨hf, hlt, rfl⟩⟩
  · intro t' ht'
    rcases (workerSelect_eq_requeue_iff _ _ _ _ _).mp ht' with ⟨-, -, rfl⟩
    exact ⟨rfl, rfl⟩

theorem claim_C3_retry_iff_budget_witness :
    isFailure SelectOutcome.ctxDone = true
      ∧ ((∃ t', workerSelect 1 "d" taskA SelectOutcome.ctxDone = .requeue t') ↔
          taskA.retries < 1) :=
  ⟨by decide, (claim_C3_retry_iff_budget 1 "d" taskA SelectOutcome.ctxDone (by decide)).1⟩

/-- C4: in every reachable state of every run, every live task's retry
count is at most `maxRetries`; and a failing attempt of a task whose
count has reached the limit is never re-enqueued but yields a terminal
error. -/
theorem claim_C4_retry_bound (env : Env) (s : EngineState) (h : Reachable env s) :
    (∀ t : FileTask, (t ∈ s.queue ∨ WState.busy t ∈ s.workers) →
        t.retries ≤ env.maxRetries)
      ∧ ∀ (t : FileTask) (o : SelectOutcome),
          env.maxRetries ≤ t.retries → isFailure o = true →
            (∀ t', workerSelect env.maxRetries env.dirPath t o ≠ .requeue t')
              ∧ ∃ e, workerSelect env.maxRetries env.dirPath t o = .terminal e := by
  refine ⟨reachable_retries_le env s h, ?_⟩
  intro t o hge hf
  rcases workerSelect_terminal_of_exhausted env.maxRetries env.dirPath t o hf hge
    with ⟨he, hn⟩
  exact ⟨hn, he⟩

theorem claim_C4_retry_bound_witness :
    taskA.retries ≤ envBug.maxRetries
      ∧ ∃ e, workerSelect envBug.maxRetries envBug.dirPath
          { fileName := "a.rdp", retries := 1 } SelectOutcome.ctxDone
            = .terminal e :=
  ⟨(claim_C4_retry_bound envBug stBug3 reachBug3).1 taskA (Or.inr (by decide)),
    ((claim_C4_retry_bound envBug stBug3 reachBug3).2
      { fileName := "a.rdp", retries := 1 } SelectOutcome.ctxDone
        (by decide) (by decide)).2⟩

/-- C5: the claim asserts a not-found result of the delete attempt is
treated as success (no retry, no terminal error).  The worker only tests
`err != nil`, so a not-found error is retried like any other failure and,
once retries are exhausted, becomes a TerminalError — both computed here
for the task `a.rdp` with `maxRetries = 1`. -/
theorem claim_C5_notfound_retried_not_success :
    workerSelect 1 "d" taskA
        (SelectOutcome.errChanRecv (some (RemoveErr.notFound "d/a.rdp")))
      = .requeue { fileName := "a.rdp", retries := 1 }
      ∧ workerSelect 1 "d" { fileName := "a.rdp", retries := 1 }
          (SelectOutcome.errChanRecv (some (RemoveErr.notFound "d/a.rdp")))
        = .terminal (.deleteFailed 1 "d/a.rdp" (RemoveErr.notFound "d/a.rdp")) := by
  constructor <;> decide

/-- C6: whenever a run has returned a value, every worker had exited
before the return, and the value is success exactly when no terminal
error was collected, otherwise the single combined failure built from
all collected terminal errors. -/
theorem claim_C6_wait_then_aggregate (env : Env) (s : EngineState)
    (res : Except String Unit) (h : Reachable env s) (hr : s.result = some res) :
    allExited s.workers = true
      ∧ (res = .ok () ↔ s.errors = [])
      ∧ (s.errors ≠ [] → res = .error (combinedMessage s.errors)) := by
  rcases reachable_result env s h res hr with ⟨hex, rfl⟩
  exact ⟨hex, collectResult_ok_iff s.errors,
    fun hne => collectResult_error_of_ne_nil s.errors hne⟩

theorem claim_C6_wait_then_aggregate_witness :
    allExited stOk6.workers = true
      ∧ (Except.ok () = (Except.ok () : Except String Unit) ↔
          stOk6.errors = ([] : List TerminalError)) :=
  ⟨(claim_C6_wait_then_aggregate envOk stOk6 (.ok ()) reachOk6 rfl).1,
    (claim_C6_wait_then_aggregate envOk stOk6 (.ok ()) reachOk6 rfl).2.1⟩

/-- C7: the initial task list contains exactly one task per non-directory
entry whose name ends with the configured extension, created with a zero
retry count — directory entries and non-matching names are never
enqueued. -/
theorem claim_C7_filter_at_enqueue (extension : String) (files : List DirEntry)
    (t : FileTask) :
    t ∈ matchingTasks extension files ↔
      ∃ f, f ∈ files ∧ f.isDir = false ∧ goHasSuffix f.name extension = true
        ∧ t = { fileName := f.name, retries := 0 } :=
  mem_matchingTasks extension files t

/-- C8: a task whose delete always fails with `maxRetries = 3` undergoes
exactly 4 attempts and ends in one delete-failed terminal error, which
the aggregation step turns into the combined failure; a task that always
times out with `maxRetries = 0` undergoes exactly 1 attempt and ends
immediately in one timeout terminal error. -/
theorem claim_C8_attempt_counts :
    runAttempts 3 "d" taskA
        (List.replicate 4
          (SelectOutcome.errChanRecv (some (RemoveErr.other "permission denied"))))
      = some (4, .terminal (.deleteFailed 3 "d/a.rdp" (RemoveErr.other "permission denied")))
      ∧ runAttempts 0 "d" taskA [SelectOutcome.ctxDone]
        = some (1, .terminal (.timeout 0 "d/a.rdp"))
      ∧ collectResult
          [TerminalError.deleteFailed 3 "d/a.rdp" (RemoveErr.other "permission denied")]
        = .error (combinedMessage
            [TerminalError.deleteFailed 3 "d/a.rdp" (RemoveErr.other "permission denied")]) :=
  ⟨by decide, by decide, rfl⟩

/-- C9: the task queue is sized at `len(files)`, which covers all live
tasks; in every reachable state an impending send — the producer's next
initial submission as well as any busy worker's re-enqueue — finds the
buffer strictly below capacity, so no send ever blocks. -/
theorem claim_C9_sends_never_block (env : Env) (s : EngineState)
    (h : Reachable env s) :
    (s.produced < env.matching.length → s.queue.length < env.capacity)
      ∧ ∀ (l r : List WState) (t : FileTask),
          s.workers = l ++ WState.busy t :: r → s.queue.length < env.capacity := by
  rcases reachable_accounting env s h with ⟨hEq, hLe⟩
  have hcap := matching_length_le env
  constructor
  · intro hlt
    omega
  · intro l r t hw
    rw [hw, busyCount_append, busyCount_cons_busy] at hEq
    omega

theorem claim_C9_sends_never_block_witness :
    stBug3.queue.length < envBug.capacity :=
  (claim_C9_sends_never_block envBug stBug3 reachBug3).2 [] [] taskA rfl

/-- C10: with the empty extension every string passes the suffix test, so
the initial task list contains exactly one task per non-directory entry,
whatever its name. -/
theorem claim_C10_empty_extension :
    (∀ s : String, goHasSuffix s "" = true)
      ∧ ∀ (files : List DirEntry) (t : FileTask),
          t ∈ matchingTasks "" files ↔
            ∃ f, f ∈ files ∧ f.isDir = false
              ∧ t = { fileName := f.name, retries := 0 } := by
  have hemp : ∀ s : String, goHasSuffix s "" = true := by
    intro s
    have h0 : s.length - String.length "" = s.toList.length := rfl
    rw [goHasSuffix, h0, List.drop_length]
    simp
  refine ⟨hemp, ?_⟩
  intro files t
  rw [mem_matchingTasks]
  constructor
  · rintro ⟨f, hm, hd, -, rfl⟩
    exact ⟨f, hm, hd, rfl⟩
  · rintro ⟨f, hm, hd, rfl⟩
    exact ⟨f, hm, hd, hemp f.name, rfl⟩
